import Mathlib

/-!
Verification development for an in-memory student CRUD manager.

The source consists of a record model (`Student` with per-field validators
and dict serialization) and a controller (`StudentController`) owning a list
of serialized records and providing create / read / update / delete /
search / statistics / export / import operations.

Embedding conventions:
* `Student` is the typed record; the controller state `self.students_data`
  (a list of full dicts produced by `to_dict`) is modelled as `List Student`.
* A Python dict that may lack keys (`from_dict` input, `create_student`
  input, `update_student` partial data) is `SDict`, a structure of `Option`
  fields; a missing key is `none`.
* `datetime.now().strftime(...)` is modelled by an explicit `now : String`
  argument threaded through the operations that stamp timestamps.
* Every controller operation takes the current stored list and returns its
  Python result tuple together with the stored list after the call, so frame
  properties are statements about the returned state.
* Numbers: `age` is `Int`, `gpa` is `Rat`; Python `round(x, n)` (round half
  to even) is `pyRound`. Character predicates model the ASCII behaviour of
  `str.isalnum` and of the regexes in the source.
-/

namespace StudentApp

/-- Whitespace class of the regex `\s` (ASCII part), used by the name rule. -/
def isPySpace (c : Char) : Bool :=
  c = ' ' || c = '\t' || c = '\n' || c = '\r' || c = Char.ofNat 11 || c = Char.ofNat 12

/-- Python `str.strip()` (ASCII whitespace model): remove leading and
trailing whitespace. -/
def pyStrip (s : String) : String :=
  ⟨((s.data.dropWhile isPySpace).reverse.dropWhile isPySpace).reverse⟩

/-- Python `str.lower()` on one character (ASCII model). -/
def pyCharLower (c : Char) : Char :=
  if 65 ≤ c.toNat ∧ c.toNat ≤ 90 then Char.ofNat (c.toNat + 32) else c

/-- Python `str.lower()` (ASCII model). -/
def pyLower (s : String) : String := ⟨s.data.map pyCharLower⟩

/-- Character class `[a-zA-Z0-9._%+-]` of the email local part. -/
def isLocalChar (c : Char) : Bool :=
  c.isAlphanum || c = '.' || c = '_' || c = '%' || c = '+' || c = '-'

/-- Character class `[a-zA-Z0-9.-]` of the email domain part. -/
def isDomainChar (c : Char) : Bool :=
  c.isAlphanum || c = '.' || c = '-'

/-- Matcher for the anchored email regex
`^[a-zA-Z0-9._%+-]+@[a-zA-Z0-9.-]+\.[a-zA-Z]{2,}$` of `validate_email`.
Since `@` belongs to no class of the pattern the string must contain exactly
one `@`, and since the final group is alphabetic the separating dot is the
last dot after the `@`. -/
def emailMatches (s : String) : Bool :=
  let cs := s.data
  let lp := cs.takeWhile (fun c => !(c = '@'))
  let rest := (cs.dropWhile (fun c => !(c = '@'))).tail
  (cs.count '@' == 1) &&
  (!lp.isEmpty) && lp.all isLocalChar &&
  rest.contains '.' &&
  (let tldRev := rest.reverse.takeWhile (fun c => !(c = '.'))
   let dom := rest.take (rest.length - tldRev.length - 1)
   (!dom.isEmpty) && dom.all isDomainChar &&
   decide (2 ≤ tldRev.length) && tldRev.all Char.isAlpha)

/-- The student record, one per `Student` object / stored full dict. -/
structure Student where
  student_id : String
  name : String
  email : String
  age : Int
  major : String
  gpa : Rat
  created_at : String
  updated_at : String
deriving Repr, DecidableEq, Inhabited

/-- A field-name-keyed mapping that may lack keys: the argument of
`Student.from_dict`, of `create_student` and of `update_student`. -/
structure SDict where
  student_id : Option String := none
  name : Option String := none
  email : Option String := none
  age : Option Int := none
  major : Option String := none
  gpa : Option Rat := none
  created_at : Option String := none
  updated_at : Option String := none
deriving Repr, DecidableEq, Inhabited

/-- `Student.validate_student_id`: non-empty, length at least 3, alphanumeric. -/
def validate_student_id (student_id : String) : Bool × String :=
  if student_id = "" then (false, "Student ID cannot be empty")
  else if student_id.length < 3 then (false, "Student ID must be at least 3 characters long")
  else if !(student_id.data.all Char.isAlphanum) then
    (false, "Student ID must contain only letters and numbers")
  else (true, "")

/-- `Student.validate_name`: non-empty after strip, length at least 2 after
strip, and the stripped name matches `^[a-zA-Z\s]+$`. -/
def validate_name (name : String) : Bool × String :=
  if name = "" || pyStrip name = "" then (false, "Name cannot be empty")
  else if (pyStrip name).length < 2 then (false, "Name must be at least 2 characters long")
  else if !((pyStrip name).data.all (fun c => c.isAlpha || isPySpace c)) then
    (false, "Name must contain only letters and spaces")
  else (true, "")

/-- `Student.validate_email`: non-empty and matching the email regex. -/
def validate_email (email : String) : Bool × String :=
  if email = "" then (false, "Email cannot be empty")
  else if !(emailMatches email) then (false, "Invalid email format")
  else (true, "")

/-- `Student.validate_age`: 16 to 100 inclusive (the `isinstance(age, int)`
guard always passes in the typed embedding). -/
def validate_age (age : Int) : Bool × String :=
  if age < 16 || age > 100 then (false, "Age must be between 16 and 100")
  else (true, "")

/-- `Student.validate_major`: non-empty after strip, length at least 2. -/
def validate_major (major : String) : Bool × String :=
  if major = "" || pyStrip major = "" then (false, "Major cannot be empty")
  else if (pyStrip major).length < 2 then (false, "Major must be at least 2 characters long")
  else (true, "")

/-- `Student.validate_gpa`: 0.0 to 4.0 inclusive (the numeric `isinstance`
guard always passes in the typed embedding). -/
def validate_gpa (gpa : Rat) : Bool × String :=
  if gpa < 0 || gpa > 4 then (false, "GPA must be between 0.0 and 4.0")
  else (true, "")

/-- `Student.validate_all_fields`: runs the six validators in order,
appending each failure message to `errors`; the duplicate-id check runs only
when the id itself validates; returns `(len(errors) == 0, errors)`. -/
def validate_all_fields (s : Student) (existing_ids : List String) : Bool × List String :=
  let errors : List String := []
  let errors :=
    let v := validate_student_id s.student_id
    if !v.1 then errors ++ [v.2]
    else if existing_ids.contains s.student_id then errors ++ ["Student ID already exists"]
    else errors
  let errors := let v := validate_name s.name; if !v.1 then errors ++ [v.2] else errors
  let errors := let v := validate_email s.email; if !v.1 then errors ++ [v.2] else errors
  let errors := let v := validate_age s.age; if !v.1 then errors ++ [v.2] else errors
  let errors := let v := validate_major s.major; if !v.1 then errors ++ [v.2] else errors
  let errors := let v := validate_gpa s.gpa; if !v.1 then errors ++ [v.2] else errors
  (errors.length == 0, errors)

/-- `Student.to_dict`: every key present. -/
def Student.to_dict (s : Student) : SDict :=
  { student_id := some s.student_id
    name := some s.name
    email := some s.email
    age := some s.age
    major := some s.major
    gpa := some s.gpa
    created_at := some s.created_at
    updated_at := some s.updated_at }

/-- `Student.from_dict`: field defaults via `data.get`; the constructor
stamps both timestamps with the current time, then timestamps present in the
source dict are preserved. -/
def Student.from_dict (now : String) (d : SDict) : Student :=
  { student_id := d.student_id.getD ""
    name := d.name.getD ""
    email := d.email.getD ""
    age := d.age.getD 0
    major := d.major.getD ""
    gpa := d.gpa.getD 0
    created_at := d.created_at.getD now
    updated_at := d.updated_at.getD now }

/-- `Student.update_timestamp`: sets `updated_at` to the current time. -/
def Student.update_timestamp (now : String) (s : Student) : Student :=
  { s with updated_at := now }

/-! ### Controller

`StudentController.students_data` is the state, a `List Student` (the stored
dicts are always full, being produced by `to_dict`). Each operation returns
`(python result, state after the call)`. -/

/-- First index whose stored record carries the given id (the lookup loops of
`update_student` / `delete_student` / `read_student_by_id`). -/
def findIndex (student_id : String) : List Student → Option Nat
  | [] => none
  | r :: rs =>
    if r.student_id = student_id then some 0 else (findIndex student_id rs).map (· + 1)

/-- `self.students_data[i]`, total via the `Inhabited` default (call sites
always pass an in-range index obtained from `findIndex`). -/
def getAt (st : List Student) (i : Nat) : Student :=
  (st.get? i).getD default

/-- The comprehension
`[s[student_id] for i, s in enumerate(self.students_data) if i != student_index]`. -/
def idsExcept (st : List Student) (i : Nat) : List String :=
  ((st.enum.filter (fun p => !(p.1 = i))).map (fun p => p.2.student_id))

/-- The merge loop of `update_student`: every key of the partial dict other
than `student_id` overwrites the current value. `cur` is always a full dict
here (it comes from `to_dict`), so the `key in current_data` guard passes for
each of the seven remaining keys. -/
def mergeDict (cur p : SDict) : SDict :=
  { student_id := cur.student_id
    name := p.name.orElse (fun _ => cur.name)
    email := p.email.orElse (fun _ => cur.email)
    age := p.age.orElse (fun _ => cur.age)
    major := p.major.orElse (fun _ => cur.major)
    gpa := p.gpa.orElse (fun _ => cur.gpa)
    created_at := p.created_at.orElse (fun _ => cur.created_at)
    updated_at := p.updated_at.orElse (fun _ => cur.updated_at) }

/-- `StudentController.create_student`. -/
def create_student (now : String) (d : SDict) (st : List Student) :
    (Bool × String × Option Student) × List Student :=
  let student : Student :=
    { student_id := d.student_id.getD ""
      name := d.name.getD ""
      email := d.email.getD ""
      age := d.age.getD 0
      major := d.major.getD ""
      gpa := d.gpa.getD 0
      created_at := now
      updated_at := now }
  let existing_ids := st.map (fun s => s.student_id)
  let v := validate_all_fields student existing_ids
  if !v.1 then
    ((false, "Validation failed:\n" ++ String.intercalate "\n" (v.2.map (fun e => "- " ++ e)),
      none), st)
  else
    ((true, "Student " ++ student.name ++ " (ID: " ++ student.student_id ++
      ") created successfully!", some student), st ++ [student])

/-- `StudentController.read_all_students`. -/
def read_all_students (now : String) (st : List Student) :
    (Bool × String × List Student) × List Student :=
  if st.isEmpty then ((true, "No students found in the system.", []), st)
  else
    ((true, "Found " ++ toString st.length ++ " student(s).",
      st.map (fun d => Student.from_dict now d.to_dict)), st)

/-- `StudentController.read_student_by_id`. -/
def read_student_by_id (now student_id : String) (st : List Student) :
    (Bool × String × Option Student) × List Student :=
  if student_id = "" then ((false, "Student ID cannot be empty.", none), st)
  else
    match findIndex student_id st with
    | some i =>
        ((true, "Student found successfully.",
          some (Student.from_dict now (getAt st i).to_dict)), st)
    | none => ((false, "Student with ID " ++ student_id ++ " not found.", none), st)

/-- `StudentController.update_student`. -/
def update_student (now student_id : String) (p : SDict) (st : List Student) :
    (Bool × String × Option Student) × List Student :=
  if student_id = "" then ((false, "Student ID cannot be empty.", none), st)
  else
    match findIndex student_id st with
    | none => ((false, "Student with ID " ++ student_id ++ " not found.", none), st)
    | some i =>
        let current_data := (getAt st i).to_dict
        let updated_student := Student.from_dict now (mergeDict current_data p)
        let existing_ids := idsExcept st i
        let v := validate_all_fields updated_student existing_ids
        if !v.1 then
          ((false, "Validation failed:\n" ++
            String.intercalate "\n" (v.2.map (fun e => "- " ++ e)), none), st)
        else
          let final := Student.update_timestamp now updated_student
          ((true, "Student " ++ final.name ++ " (ID: " ++ student_id ++
            ") updated successfully!", some final), st.set i final)

/-- `StudentController.delete_student`. -/
def delete_student (student_id : String) (st : List Student) :
    (Bool × String) × List Student :=
  if student_id = "" then ((false, "Student ID cannot be empty."), st)
  else
    match findIndex student_id st with
    | some i =>
        ((true, "Student " ++ (getAt st i).name ++ " (ID: " ++ student_id ++
          ") deleted successfully!"), st.eraseIdx i)
    | none => ((false, "Student with ID " ++ student_id ++ " not found."), st)

/-- The valid search fields of `search_students`. -/
def valid_fields : List String := ["name", "major", "email", "student_id"]

/-- `str(data.get(search_field, ''))` for the four valid fields. -/
def fieldValue (field : String) (s : Student) : String :=
  if field = "name" then s.name
  else if field = "major" then s.major
  else if field = "email" then s.email
  else if field = "student_id" then s.student_id
  else ""

/-- Python substring containment `needle in hay` on character lists. -/
def containsSub (needle hay : List Char) : Bool :=
  (List.range (hay.length + 1)).any (fun i => needle.isPrefixOf (hay.drop i))

/-- `StudentController.search_students`. -/
def search_students (now term field : String) (st : List Student) :
    (Bool × String × List Student) × List Student :=
  if term = "" then ((false, "Search term cannot be empty.", []), st)
  else if !(valid_fields.contains field) then
    ((false, "Invalid search field. Valid fields: " ++ String.intercalate ", " valid_fields,
      []), st)
  else
    let tl := pyLower term
    let matching := (st.filter
      (fun d => containsSub tl.data (pyLower (fieldValue field d)).data)).map
      (fun d => Student.from_dict now d.to_dict)
    if matching.isEmpty then
      ((true, "No students found matching " ++ term ++ " in " ++ field ++ ".", []), st)
    else
      ((true, "Found " ++ toString matching.length ++ " student(s) matching " ++ term ++
        " in " ++ field ++ ".", matching), st)

/-- Python `max` over a non-empty list, head plus fold over the tail. -/
def listMax (x : Rat) (xs : List Rat) : Rat := xs.foldl max x

/-- Python `min` over a non-empty list, head plus fold over the tail. -/
def listMin (x : Rat) (xs : List Rat) : Rat := xs.foldl min x

/-- One step of the major-counting loop: bump the existing entry or append a
new one (dict insertion order: first occurrence order). -/
def bumpMajor (acc : List (String × Nat)) (m : String) : List (String × Nat) :=
  if acc.any (fun q => q.1 = m) then
    acc.map (fun q => if q.1 = m then (q.1, q.2 + 1) else q)
  else acc ++ [(m, 1)]

/-- The `major_counts` loop of `get_statistics`. -/
def countMajors (ms : List String) : List (String × Nat) := ms.foldl bumpMajor []

/-- Round half to even to the nearest integer (Python `round` on exact
values). `rem2` is twice the numerator of the fractional part `q - ⌊q⌋`
over the denominator of `q`, so comparing it with the denominator compares
the fractional part with one half using integer arithmetic only. -/
def roundHalfEven (q : Rat) : Int :=
  let f : Int := q.floor
  let rem2 : Int := 2 * (q.num - f * (q.den : Int))
  if rem2 < (q.den : Int) then f
  else if (q.den : Int) < rem2 then f + 1
  else if f % 2 = 0 then f else f + 1

/-- Python `round(q, n)` on exact rational values. -/
def pyRound (q : Rat) (n : Nat) : Rat :=
  ((roundHalfEven (q * (10 : Rat) ^ n) : Rat)) / (10 : Rat) ^ n

/-- The statistics payload dict of `get_statistics`. -/
structure Stats where
  total_students : Nat
  average_gpa : Rat
  highest_gpa : Rat
  lowest_gpa : Rat
  average_age : Rat
  major_distribution : List (String × Nat)
deriving Repr, DecidableEq

/-- `StudentController.get_statistics`; the empty payload dict of the empty
collection is `none`. -/
def get_statistics (st : List Student) : (Bool × String × Option Stats) × List Student :=
  match st with
  | [] => ((true, "No students in the system.", none), [])
  | s :: ss =>
      let st := s :: ss
      let gpas := st.map (fun d => d.gpa)
      let ages := st.map (fun d => d.age)
      let majors := st.map (fun d => d.major)
      let avg_gpa := gpas.sum / (gpas.length : Rat)
      let avg_age := ((ages.sum : Rat)) / (ages.length : Rat)
      ((true, "Statistics calculated successfully.", some
        { total_students := st.length
          average_gpa := pyRound avg_gpa 2
          highest_gpa := listMax s.gpa (ss.map (fun d => d.gpa))
          lowest_gpa := listMin s.gpa (ss.map (fun d => d.gpa))
          average_age := pyRound avg_age 1
          major_distribution := countMajors majors }), st)

/-- `StudentController.export_data`: a copy of the stored list. -/
def export_data (st : List Student) : (Bool × String × List Student) × List Student :=
  ((true, "Exported " ++ toString st.length ++ " student records.", st), st)

/-- The validation loop of `import_data`: each row becomes a `Student`, is
validated against the ids of the rows accepted so far, and is appended to
`valid` on success; on failure a row error is appended instead. -/
def import_rows (now : String) (valid : List Student) (errs : List String) (i : Nat) :
    List SDict → List Student × List String
  | [] => (valid, errs)
  | row :: rest =>
    let student := Student.from_dict now row
    let existing_ids := valid.map (fun s => s.student_id)
    let v := validate_all_fields student existing_ids
    if v.1 then import_rows now (valid ++ [student]) errs (i + 1) rest
    else
      import_rows now valid
        (errs ++ ["Row " ++ toString (i + 1) ++ ": " ++ String.intercalate ", " v.2])
        (i + 1) rest

/-- `StudentController.import_data`: all-or-nothing replacement of the
stored list. -/
def import_data (now : String) (rows : List SDict) (st : List Student) :
    (Bool × String) × List Student :=
  let r := import_rows now [] [] 0 rows
  if !r.2.isEmpty then
    ((false, "Import failed due to validation errors:\n" ++ String.intercalate "\n" r.2), st)
  else
    ((true, "Successfully imported " ++ toString r.1.length ++ " student records."), r.1)

/-! ### Reachable controller states

One mutating call of the controller, and the collection reached by a
sequence of calls starting from the empty collection of `__init__`. -/

/-- A mutating controller call with its inputs. -/
inductive Op where
  | createOp (now : String) (d : SDict)
  | updateOp (now student_id : String) (p : SDict)
  | deleteOp (student_id : String)
  | importOp (now : String) (rows : List SDict)
deriving Repr

/-- The stored collection after one call. -/
def applyOp (st : List Student) : Op → List Student
  | Op.createOp now d => (create_student now d st).2
  | Op.updateOp now sid p => (update_student now sid p st).2
  | Op.deleteOp sid => (delete_student sid st).2
  | Op.importOp now rows => (import_data now rows st).2

/-- The stored collection after a sequence of calls from the empty state. -/
def runOps (ops : List Op) : List Student := ops.foldl applyOp []

/-- First-key lookup in an association list (Python dict access on the
insertion-ordered `major_counts`). -/
def lookupK (m : String) : List (String × Nat) → Option Nat
  | [] => none
  | (k, v) :: rest => if k = m then some v else lookupK m rest

/-! ### Concrete records for evaluations -/

/-- A concrete record passing every validator (the GPA 3.5 is written in
reduced constructor form so that concrete evaluation proceeds in the
kernel). -/
def rs123 : Student :=
  { student_id := "S123", name := "Alice Smith", email := "alice@mail.com",
    age := 20, major := "Math", gpa := ⟨7, 2, by decide, by decide⟩,
    created_at := "2024-01-01 10:00:00", updated_at := "2024-01-01 10:00:00" }

/-- Partial update data carrying a `created_at` key. -/
def pCex : SDict := { created_at := some "1999-01-01 00:00:00" }

/-- Five valid records with GPAs 3.8, 3.9, 3.5, 3.7 and 3.6. -/
def fiveStudents : List Student :=
  [{ rs123 with student_id := "S201", gpa := ⟨19, 5, by decide, by decide⟩ },
   { rs123 with student_id := "S202", gpa := ⟨39, 10, by decide, by decide⟩ },
   { rs123 with student_id := "S203", gpa := ⟨7, 2, by decide, by decide⟩ },
   { rs123 with student_id := "S204", gpa := ⟨37, 10, by decide, by decide⟩ },
   { rs123 with student_id := "S205", gpa := ⟨18, 5, by decide, by decide⟩ }]

/-! ### Basic lemmas about the model -/

lemma from_dict_to_dict (now : String) (s : Student) :
    Student.from_dict now s.to_dict = s := rfl

lemma map_from_dict_to_dict (now : String) (l : List Student) :
    l.map (fun d => Student.from_dict now d.to_dict) = l := by
  simp [from_dict_to_dict]

/-- The error list of `validate_all_fields` is the ordered concatenation of
the six per-field contributions. -/
lemma vaf_decomp (s : Student) (ids : List String) :
    (validate_all_fields s ids).2 =
      (if (validate_student_id s.student_id).1 then
        (if ids.contains s.student_id then ["Student ID already exists"] else [])
      else [(validate_student_id s.student_id).2]) ++
      ((if (validate_name s.name).1 then [] else [(validate_name s.name).2]) ++
       ((if (validate_email s.email).1 then [] else [(validate_email s.email).2]) ++
        ((if (validate_age s.age).1 then [] else [(validate_age s.age).2]) ++
         ((if (validate_major s.major).1 then [] else [(validate_major s.major).2]) ++
          (if (validate_gpa s.gpa).1 then [] else [(validate_gpa s.gpa).2]))))) := by
  unfold validate_all_fields
  split_ifs <;> simp_all

/-- The success flag of `validate_all_fields` is exactly emptiness of the
accumulated error list. -/
lemma vaf_ok_iff (s : Student) (ids : List String) :
    (validate_all_fields s ids).1 = true ↔ (validate_all_fields s ids).2 = [] := by
  unfold validate_all_fields
  simp [List.length_eq_zero]

lemma validate_student_id_msg (x : String) :
    ¬ (validate_student_id x).2 = "Student ID already exists" := by
  unfold validate_student_id; split_ifs <;> decide

lemma validate_name_msg (x : String) :
    ¬ (validate_name x).2 = "Student ID already exists" := by
  unfold validate_name; split_ifs <;> decide

lemma validate_email_msg (x : String) :
    ¬ (validate_email x).2 = "Student ID already exists" := by
  unfold validate_email; split_ifs <;> decide

lemma validate_age_msg (x : Int) :
    ¬ (validate_age x).2 = "Student ID already exists" := by
  unfold validate_age; split_ifs <;> decide

lemma validate_major_msg (x : String) :
    ¬ (validate_major x).2 = "Student ID already exists" := by
  unfold validate_major; split_ifs <;> decide

lemma validate_gpa_msg (x : Rat) :
    ¬ (validate_gpa x).2 = "Student ID already exists" := by
  unfold validate_gpa; split_ifs <;> decide

/-- The duplicate-id message occurs in the accumulated errors exactly when
the id is syntactically valid and already present. -/
lemma dup_mem_iff (s : Student) (ids : List String) :
    "Student ID already exists" ∈ (validate_all_fields s ids).2 ↔
      ((validate_student_id s.student_id).1 = true ∧ s.student_id ∈ ids) := by
  rw [vaf_decomp]
  simp only [List.mem_append, List.mem_singleton]
  constructor
  · rintro (h | h | h | h | h | h)
    · split_ifs at h with h1 h2
      · simp only [List.mem_singleton] at h
        exact ⟨h1, by simpa using h2⟩
      · simp at h
      · simp only [List.mem_singleton] at h
        exact absurd h.symm (validate_student_id_msg s.student_id)
    · split_ifs at h
      · simp at h
      · simp only [List.mem_singleton] at h
        exact absurd h.symm (validate_name_msg s.name)
    · split_ifs at h
      · simp at h
      · simp only [List.mem_singleton] at h
        exact absurd h.symm (validate_email_msg s.email)
    · split_ifs at h
      · simp at h
      · simp only [List.mem_singleton] at h
        exact absurd h.symm (validate_age_msg s.age)
    · split_ifs at h
      · simp at h
      · simp only [List.mem_singleton] at h
        exact absurd h.symm (validate_major_msg s.major)
    · split_ifs at h
      · simp at h
      · simp only [List.mem_singleton] at h
        exact absurd h.symm (validate_gpa_msg s.gpa)
  · rintro ⟨h1, h2⟩
    left
    simp [h1, List.contains_eq_any_beq, h2]

/-- A record that passes full validation has a syntactically valid id that is
not among the existing ids. -/
lemma vaf_ok_not_mem {s : Student} {ids : List String}
    (h : (validate_all_fields s ids).1 = true) :
    (validate_student_id s.student_id).1 = true ∧ s.student_id ∉ ids := by
  have h2 := (vaf_ok_iff s ids).mp h
  rw [vaf_decomp] at h2
  rcases List.append_eq_nil.mp h2 with ⟨h3, _⟩
  by_cases hid : (validate_student_id s.student_id).1 = true
  · refine ⟨hid, fun hc => ?_⟩
    rw [if_pos hid, if_pos (by simpa using hc)] at h3
    simp at h3
  · rw [if_neg (by simpa using hid)] at h3
    simp at h3

/-! ### List helpers -/

lemma findIndex_lt {sid : String} : ∀ {st : List Student} {i : Nat},
    findIndex sid st = some i → i < st.length := by
  intro st
  induction st with
  | nil => intro i h; simp [findIndex] at h
  | cons r rs ih =>
    intro i h
    unfold findIndex at h
    split_ifs at h with h1
    · simp at h
      subst h
      simp
    · rcases Option.map_eq_some'.mp h with ⟨j, hj, rfl⟩
      have := ih hj
      simp only [List.length_cons]
      omega

lemma findIndex_get {sid : String} : ∀ {st : List Student} {i : Nat},
    findIndex sid st = some i → ∃ r, st.get? i = some r ∧ r.student_id = sid := by
  intro st
  induction st with
  | nil => intro i h; simp [findIndex] at h
  | cons r rs ih =>
    intro i h
    unfold findIndex at h
    split_ifs at h with h1
    · simp at h
      subst h
      exact ⟨r, rfl, h1⟩
    · rcases Option.map_eq_some'.mp h with ⟨j, hj, rfl⟩
      simpa using ih hj

lemma set_of_get? {α : Type} : ∀ {l : List α} {i : Nat} {a : α},
    l.get? i = some a → l.set i a = l := by
  intro l
  induction l with
  | nil => intro i a h; simp at h
  | cons x xs ih =>
    intro i a h
    cases i with
    | zero => simp_all
    | succ n =>
      simp only [List.get?_cons_succ] at h
      simp [List.set, ih h]

/-! ### Frame lemmas: operations that return the stored list unchanged -/

lemma read_all_state (now : String) (st : List Student) :
    (read_all_students now st).2 = st := by
  unfold read_all_students; split <;> rfl

lemma read_by_id_state (now student_id : String) (st : List Student) :
    (read_student_by_id now student_id st).2 = st := by
  unfold read_student_by_id
  split_ifs with h
  · rfl
  · split <;> rfl

lemma search_state (now term field : String) (st : List Student) :
    (search_students now term field st).2 = st := by
  unfold search_students
  split_ifs <;> try rfl
  dsimp only
  split <;> rfl

lemma stats_state (st : List Student) : (get_statistics st).2 = st := by
  unfold get_statistics; split <;> rfl

lemma create_fail_state {now : String} {d : SDict} {st : List Student}
    (h : (create_student now d st).1.1 = false) :
    (create_student now d st).2 = st := by
  unfold create_student at h ⊢
  dsimp only at h ⊢
  split_ifs at h ⊢ with hv
  all_goals first | rfl | simp at h

lemma update_fail_state {now student_id : String} {p : SDict} {st : List Student}
    (h : (update_student now student_id p st).1.1 = false) :
    (update_student now student_id p st).2 = st := by
  unfold update_student at h ⊢
  split_ifs at h ⊢ with h0
  · rfl
  · cases hF : findIndex student_id st with
    | none => simp only [hF] at h ⊢
    | some i =>
      simp only [hF] at h ⊢
      split_ifs at h ⊢ with hv
      all_goals first | rfl | simp at h

lemma delete_fail_state {student_id : String} {st : List Student}
    (h : (delete_student student_id st).1.1 = false) :
    (delete_student student_id st).2 = st := by
  unfold delete_student at h ⊢
  split_ifs at h ⊢ with h0
  · rfl
  · cases hF : findIndex student_id st with
    | none => simp only [hF] at h ⊢
    | some i => simp only [hF] at h ⊢; simp at h

lemma import_fail_state {now : String} {rows : List SDict} {st : List Student}
    (h : (import_data now rows st).1.1 = false) :
    (import_data now rows st).2 = st := by
  unfold import_data at h ⊢
  dsimp only at h ⊢
  split_ifs at h ⊢ with hv
  all_goals first | rfl | simp at h

/-! ### Update lemmas -/

lemma orElse_some_getD {α : Type} (o : Option α) (a b : α) :
    (o.orElse (fun _ => some a)).getD b = o.getD a := by cases o <;> rfl

/-- A successful or failing update maps any per-record observation `f` that
the merged-and-stamped record preserves to the same list. -/
lemma update_state_map_eq {α : Type} (f : Student → α) (now student_id : String) (p : SDict)
    (st : List Student)
    (hf : ∀ cur : Student,
      f (Student.update_timestamp now (Student.from_dict now (mergeDict cur.to_dict p))) = f cur) :
    (update_student now student_id p st).2.map f = st.map f := by
  unfold update_student
  split_ifs with h0
  · rfl
  · cases hF : findIndex student_id st with
    | none => rfl
    | some i =>
      dsimp only
      split_ifs with hv
      · rfl
      · obtain ⟨r, hr, _⟩ := findIndex_get hF
        have hget : getAt st i = r := by unfold getAt; rw [hr]; rfl
        rw [List.map_set, hf (getAt st i), hget]
        exact set_of_get? (by rw [List.get?_map, hr]; rfl)

lemma update_state_ids (now student_id : String) (p : SDict) (st : List Student) :
    (update_student now student_id p st).2.map (fun s => s.student_id) =
      st.map (fun s => s.student_id) :=
  update_state_map_eq _ now student_id p st (fun _ => rfl)

lemma update_state_created_at (now student_id : String) (p : SDict) (st : List Student)
    (h : p.created_at = none) :
    (update_student now student_id p st).2.map (fun s => s.created_at) =
      st.map (fun s => s.created_at) :=
  update_state_map_eq _ now student_id p st (fun cur => by
    simp [Student.update_timestamp, Student.from_dict, mergeDict, Student.to_dict, h,
      orElse_some_getD])

/-! ### Import lemmas -/

/-- The error accumulator only prefixes the errors produced by the loop. -/
lemma import_rows_shift (now : String) (rows : List SDict) :
    ∀ (valid : List Student) (errs : List String) (i : Nat),
      (import_rows now valid errs i rows).1 = (import_rows now valid [] i rows).1 ∧
      (import_rows now valid errs i rows).2 =
        errs ++ (import_rows now valid [] i rows).2 := by
  induction rows with
  | nil => intro valid errs i; simp [import_rows]
  | cons row rest ih =>
    intro valid errs i
    unfold import_rows
    by_cases hv : (validate_all_fields (Student.from_dict now row)
        (valid.map (fun s => s.student_id))).1 = true
    · rw [if_pos hv, if_pos hv]
      exact ⟨(ih _ errs (i+1)).1.trans ((ih _ [] (i+1)).1).symm,
        (ih _ errs (i+1)).2.trans (by rw [(ih _ [] (i+1)).2])⟩
    · rw [if_neg hv, if_neg hv]
      set m := "Row " ++ toString (i + 1) ++ ": " ++ String.intercalate ", "
        (validate_all_fields (Student.from_dict now row)
          (valid.map (fun s => s.student_id))).2 with hm
      refine ⟨(ih valid (errs ++ [m]) (i+1)).1.trans
        ((ih valid ([] ++ [m]) (i+1)).1).symm, ?_⟩
      rw [(ih valid (errs ++ [m]) (i+1)).2, (ih valid ([] ++ [m]) (i+1)).2]
      simp [List.append_assoc]

/-- The loop accepts every row exactly when each row validates against the
ids of the rows before it, and then yields exactly the deserialized rows. -/
lemma import_rows_ok (now : String) (rows : List SDict) :
    ∀ (valid : List Student) (i : Nat),
      ((import_rows now valid [] i rows).2 = [] ↔
        ∀ j (h : j < rows.length),
          (validate_all_fields (Student.from_dict now (rows.get ⟨j, h⟩))
            ((valid ++ ((rows.take j).map (Student.from_dict now))).map
              (fun s => s.student_id))).1 = true) ∧
      ((import_rows now valid [] i rows).2 = [] →
        (import_rows now valid [] i rows).1 = valid ++ rows.map (Student.from_dict now)) := by
  induction rows with
  | nil =>
    intro valid i
    refine ⟨by simp [import_rows], fun _ => by simp [import_rows]⟩
  | cons row rest ih =>
    intro valid i
    unfold import_rows
    by_cases hv : (validate_all_fields (Student.from_dict now row)
        (valid.map (fun s => s.student_id))).1 = true
    · rw [if_pos hv]
      have IH := ih (valid ++ [Student.from_dict now row]) (i+1)
      constructor
      · rw [IH.1]
        constructor
        · intro hall j hj
          match j, hj with
          | 0, hj => simpa using hv
          | j+1, hj =>
            have hj2 : j < rest.length := by simpa using Nat.lt_of_succ_lt_succ hj
            have := hall j hj2
            simpa [List.append_assoc] using this
        · intro hall j hj
          have := hall (j+1) (by simpa using Nat.succ_lt_succ hj)
          simpa [List.append_assoc] using this
      · intro h2
        rw [IH.2 h2]
        simp
    · rw [if_neg hv]
      have hne : (import_rows now valid ([] ++ ["Row " ++ toString (i + 1) ++ ": " ++
          String.intercalate ", " (validate_all_fields (Student.from_dict now row)
            (valid.map (fun s => s.student_id))).2]) (i+1) rest).2 ≠ [] := by
        rw [(import_rows_shift now rest valid _ (i+1)).2]
        simp
      constructor
      · constructor
        · intro habs; exact absurd habs hne
        · intro hall
          have h0 := hall 0 (by simp)
          simp at h0
          exact absurd h0 hv
      · intro habs; exact absurd habs hne

/-! ### idsExcept and uniqueness lemmas -/

lemma not_not_eq_true {b : Bool} (h : ¬ ((!b) = true)) : b = true := by
  cases b <;> simp_all

lemma idsExceptAux (rs : List Student) : ∀ (n i : Nat),
    ((List.enumFrom n rs).filter (fun q => !(q.1 = i))).map (fun q => q.2.student_id) =
      if n ≤ i then
        ((rs.take (i - n)).map (fun s => s.student_id)) ++
          ((rs.drop (i - n + 1)).map (fun s => s.student_id))
      else rs.map (fun s => s.student_id) := by
  induction rs with
  | nil => intro n i; simp [List.enumFrom]
  | cons r rs ih =>
    intro n i
    rw [List.enumFrom_cons]
    by_cases hni : n = i
    · subst hni
      rw [List.filter_cons_of_neg (by simp)]
      rw [ih (n+1) n, if_neg (by omega), if_pos (le_refl n)]
      simp
    · rw [List.filter_cons_of_pos (by simp [hni])]
      by_cases hle : n ≤ i
      · rw [if_pos hle]
        simp only [List.map_cons]
        rw [ih (n+1) i, if_pos (by omega)]
        obtain ⟨k, hk⟩ : ∃ k, i - n = k + 1 := ⟨i - n - 1, by omega⟩
        rw [hk]
        have h1 : i - (n+1) = k := by omega
        rw [h1]
        simp [List.take_succ_cons, List.drop_succ_cons]
      · rw [if_neg hle]
        simp only [List.map_cons]
        rw [ih (n+1) i, if_neg (by omega)]

/-- The comprehension that skips index `i` collects exactly the ids before
and after position `i`. -/
lemma idsExcept_eq (st : List Student) (i : Nat) :
    idsExcept st i =
      ((st.take i).map (fun s => s.student_id)) ++
        ((st.drop (i+1)).map (fun s => s.student_id)) := by
  unfold idsExcept
  have h := idsExceptAux st 0 i
  simp only [List.enum] at h ⊢
  rw [h, if_pos (Nat.zero_le i)]
  simp

lemma not_mem_idsExcept {st : List Student} {i : Nat} {cur : Student}
    (hnd : (st.map (fun s => s.student_id)).Nodup) (hget : st.get? i = some cur) :
    cur.student_id ∉ idsExcept st i := by
  rw [idsExcept_eq]
  have hi : i < st.length := by
    by_contra hc
    rw [List.get?_eq_none.mpr (by omega)] at hget
    exact Option.noConfusion hget
  have hstv : st = st.take i ++ cur :: st.drop (i+1) := by
    conv_lhs => rw [← List.take_append_drop i st]
    congr 1
    rw [List.drop_eq_get_cons hi]
    obtain ⟨h', he⟩ := List.get?_eq_some.mp hget
    rw [show st.get ⟨i, hi⟩ = cur from he]
  rw [hstv, List.map_append, List.map_cons] at hnd
  have h2 := List.nodup_middle.mp hnd
  intro hmem
  exact (List.nodup_cons.mp h2).1 hmem

lemma create_nodup {now : String} {d : SDict} {st : List Student}
    (h : (st.map (fun s => s.student_id)).Nodup) :
    ((create_student now d st).2.map (fun s => s.student_id)).Nodup := by
  unfold create_student
  dsimp only
  split_ifs with hv
  · exact h
  · obtain ⟨-, hnm⟩ := vaf_ok_not_mem (not_not_eq_true hv)
    rw [List.map_append]
    exact List.nodup_append.mpr ⟨h, List.nodup_singleton _,
      by simpa [List.disjoint_singleton] using hnm⟩

lemma delete_nodup {student_id : String} {st : List Student}
    (h : (st.map (fun s => s.student_id)).Nodup) :
    ((delete_student student_id st).2.map (fun s => s.student_id)).Nodup := by
  unfold delete_student
  split_ifs with h0
  · exact h
  · cases hF : findIndex student_id st with
    | none => simpa using h
    | some i =>
      simp only [hF]
      exact List.Nodup.sublist (List.Sublist.map _ (List.eraseIdx_sublist st i)) h

lemma import_rows_nodup (now : String) (rows : List SDict) :
    ∀ (valid : List Student) (errs : List String) (i : Nat),
      (valid.map (fun s => s.student_id)).Nodup →
      ((import_rows now valid errs i rows).1.map (fun s => s.student_id)).Nodup := by
  induction rows with
  | nil => intro valid errs i h; simpa [import_rows] using h
  | cons row rest ih =>
    intro valid errs i h
    unfold import_rows
    by_cases hv : (validate_all_fields (Student.from_dict now row)
        (valid.map (fun s => s.student_id))).1 = true
    · rw [if_pos hv]
      refine ih _ _ _ ?_
      obtain ⟨-, hnm⟩ := vaf_ok_not_mem hv
      rw [List.map_append]
      exact List.nodup_append.mpr ⟨h, List.nodup_singleton _,
        by simpa [List.disjoint_singleton] using hnm⟩
    · rw [if_neg hv]
      exact ih _ _ _ h

lemma import_nodup {now : String} {rows : List SDict} {st : List Student}
    (h : (st.map (fun s => s.student_id)).Nodup) :
    ((import_data now rows st).2.map (fun s => s.student_id)).Nodup := by
  unfold import_data
  dsimp only
  split_ifs with he
  · exact h
  · exact import_rows_nodup now rows [] [] 0 (by simp)

lemma applyOp_nodup {st : List Student} (op : Op)
    (h : (st.map (fun s => s.student_id)).Nodup) :
    ((applyOp st op).map (fun s => s.student_id)).Nodup := by
  cases op with
  | createOp now d => exact create_nodup h
  | updateOp now sid p =>
    unfold applyOp
    rw [update_state_ids]
    exact h
  | deleteOp sid => exact delete_nodup h
  | importOp now rows => exact import_nodup h

lemma runOps_nodup (ops : List Op) : ∀ st : List Student,
    (st.map (fun s => s.student_id)).Nodup →
    ((ops.foldl applyOp st).map (fun s => s.student_id)).Nodup := by
  induction ops with
  | nil => intro st h; simpa using h
  | cons op rest ih => intro st h; exact ih _ (applyOp_nodup op h)

/-! ### Statistics lemmas -/

lemma listMax_spec (xs : List Rat) : ∀ x : Rat,
    (listMax x xs = x ∨ listMax x xs ∈ xs) ∧ x ≤ listMax x xs ∧
      ∀ g ∈ xs, g ≤ listMax x xs := by
  induction xs with
  | nil => intro x; exact ⟨Or.inl rfl, le_refl x, by simp⟩
  | cons y ys ih =>
    intro x
    have h := ih (max x y)
    unfold listMax at h ⊢
    rw [List.foldl_cons]
    refine ⟨?_, le_trans (le_max_left x y) h.2.1, ?_⟩
    · rcases h.1 with h1 | h1
      · rcases max_choice x y with hm | hm
        · exact Or.inl (h1.trans hm)
        · exact Or.inr (by rw [h1, hm]; exact List.mem_cons_self y ys)
      · exact Or.inr (List.mem_cons_of_mem y h1)
    · intro g hg
      rcases List.mem_cons.mp hg with rfl | hg
      · exact le_trans (le_max_right x g) h.2.1
      · exact h.2.2 g hg

lemma listMin_spec (xs : List Rat) : ∀ x : Rat,
    (listMin x xs = x ∨ listMin x xs ∈ xs) ∧ listMin x xs ≤ x ∧
      ∀ g ∈ xs, listMin x xs ≤ g := by
  induction xs with
  | nil => intro x; exact ⟨Or.inl rfl, le_refl x, by simp⟩
  | cons y ys ih =>
    intro x
    have h := ih (min x y)
    unfold listMin at h ⊢
    rw [List.foldl_cons]
    refine ⟨?_, le_trans h.2.1 (min_le_left x y), ?_⟩
    · rcases h.1 with h1 | h1
      · rcases min_choice x y with hm | hm
        · exact Or.inl (h1.trans hm)
        · exact Or.inr (by rw [h1, hm]; exact List.mem_cons_self y ys)
      · exact Or.inr (List.mem_cons_of_mem y h1)
    · intro g hg
      rcases List.mem_cons.mp hg with rfl | hg
      · exact le_trans h.2.1 (min_le_right x g)
      · exact h.2.2 g hg

lemma lookupK_cons (m k : String) (v : Nat) (l : List (String × Nat)) :
    lookupK m ((k, v) :: l) = if k = m then some v else lookupK m l := rfl

lemma lookupK_map_bump (x m : String) : ∀ acc : List (String × Nat),
    lookupK m (acc.map (fun q => if q.1 = x then (q.1, q.2 + 1) else q)) =
      if m = x then (lookupK m acc).map (fun v => v + 1) else lookupK m acc := by
  intro acc
  induction acc with
  | nil => simp only [List.map_nil]; split_ifs <;> rfl
  | cons q rest ih =>
    obtain ⟨k, v⟩ := q
    simp only [List.map_cons]
    by_cases hmx : m = x <;> by_cases hkm : k = m <;> by_cases hkx : k = x <;>
      simp_all [lookupK_cons]

lemma lookupK_append_single (m : String) (e : String × Nat) : ∀ acc : List (String × Nat),
    lookupK m (acc ++ [e]) =
      ((lookupK m acc).orElse (fun _ => if e.1 = m then some e.2 else none)) := by
  intro acc
  induction acc with
  | nil => simp [lookupK]
  | cons q rest ih =>
    obtain ⟨k, v⟩ := q
    by_cases hkm : k = m
    · simp [lookupK_cons, hkm]
    · simp [lookupK_cons, hkm, ih]

lemma any_false_lookupK (x : String) : ∀ acc : List (String × Nat),
    acc.any (fun q => q.1 = x) = false → lookupK x acc = none := by
  intro acc
  induction acc with
  | nil => intro _; rfl
  | cons q rest ih =>
    obtain ⟨k, v⟩ := q
    intro h
    simp only [List.any_cons, Bool.or_eq_false_iff] at h
    have hkx : ¬ k = x := by simpa using h.1
    simp [lookupK_cons, hkx, ih h.2]

lemma any_true_lookupK (x : String) : ∀ acc : List (String × Nat),
    acc.any (fun q => q.1 = x) = true → ∃ v, lookupK x acc = some v := by
  intro acc
  induction acc with
  | nil => intro h; simp at h
  | cons q rest ih =>
    obtain ⟨k, v⟩ := q
    intro h
    by_cases hkx : k = x
    · exact ⟨v, by simp [lookupK_cons, hkx]⟩
    · simp only [List.any_cons, Bool.or_eq_true] at h
      have hrest : rest.any (fun q => q.1 = x) = true := by
        rcases h with h1 | h1
        · exact absurd (by simpa using h1) hkx
        · exact h1
      obtain ⟨w, hw⟩ := ih hrest
      exact ⟨w, by simp [lookupK_cons, hkx, hw]⟩

lemma bumpMajor_lookup (x m : String) (acc : List (String × Nat)) :
    lookupK m (bumpMajor acc x) =
      if m = x then some ((lookupK m acc).getD 0 + 1) else lookupK m acc := by
  unfold bumpMajor
  split_ifs with ha hmx hmx
  · rw [lookupK_map_bump, if_pos hmx]
    subst hmx
    obtain ⟨v, hv⟩ := any_true_lookupK m acc ha
    simp [hv]
  · rw [lookupK_map_bump, if_neg hmx]
  · subst hmx
    have ha2 : acc.any (fun q => q.1 = m) = false := by
      revert ha
      cases acc.any (fun q => q.1 = m) <;> simp
    rw [lookupK_append_single, any_false_lookupK m acc ha2]
    simp [any_false_lookupK m acc ha2]
  · rw [lookupK_append_single]
    have hxm : ¬ x = m := fun h => hmx h.symm
    cases h : lookupK m acc <;> simp [hxm]

lemma foldl_bumpMajor_lookup (m : String) : ∀ (ms : List String) (acc : List (String × Nat)),
    lookupK m (ms.foldl bumpMajor acc) =
      if m ∈ ms then some ((lookupK m acc).getD 0 + ms.count m)
      else lookupK m acc := by
  intro ms
  induction ms with
  | nil => intro acc; simp
  | cons x rest ih =>
    intro acc
    rw [List.foldl_cons, ih (bumpMajor acc x), bumpMajor_lookup]
    by_cases hmx : m = x
    · subst hmx
      rw [if_pos rfl, if_pos (List.mem_cons_self m rest)]
      by_cases hmr : m ∈ rest
      · rw [if_pos hmr]
        have hc : (m :: rest).count m = rest.count m + 1 := by
          simp [List.count_cons]
        rw [hc]
        congr 1
        simp only [Option.getD_some]
        omega
      · rw [if_neg hmr]
        have h0 : rest.count m = 0 := List.count_eq_zero.mpr hmr
        have hc : (m :: rest).count m = 1 := by simp [List.count_cons, h0]
        rw [hc]
    · rw [if_neg hmx]
      have hxm : (x == m) = false := by
        simp only [beq_eq_false_iff_ne, ne_eq]
        exact fun h => hmx h.symm
      have hc : (x :: rest).count m = rest.count m := by
        simp [List.count_cons, hxm]
      by_cases hmr : m ∈ rest
      · rw [if_pos hmr, if_pos (List.mem_cons_of_mem x hmr), hc]
      · rw [if_neg hmr, if_neg (by simp [hmx, hmr])]

/-- The major distribution maps exactly the majors present to their
multiplicities. -/
lemma countMajors_lookup (ms : List String) (m : String) :
    lookupK m (countMajors ms) = if m ∈ ms then some (ms.count m) else none := by
  unfold countMajors
  rw [foldl_bumpMajor_lookup]
  simp [lookupK]

/-! ### Claim theorems -/

/-- C3: deserializing the serialization of any record r yields a record equal
to r in every field, timestamps included; when the source map lacks the
timestamp keys, both timestamps are stamped with the current time. -/
theorem C3_serialization_roundtrip (now : String) (r : Student) (d : SDict) :
    Student.from_dict now r.to_dict = r ∧
    (d.created_at = none → d.updated_at = none →
      (Student.from_dict now d).created_at = now ∧
        (Student.from_dict now d).updated_at = now) := by
  refine ⟨rfl, fun h1 h2 => ?_⟩
  simp [Student.from_dict, h1, h2]

theorem C3_serialization_roundtrip_witness :
    (Student.from_dict "W" {}).created_at = "W" ∧
    (Student.from_dict "W" {}).updated_at = "W" :=
  (C3_serialization_roundtrip "W" rs123 {}).2 rfl rfl

/-- C10: the read-only operations (read all, read by id, search, statistics,
export) return the stored collection unchanged, whether they succeed or
fail. -/
theorem C10_readonly_frame (now student_id term field : String) (st : List Student) :
    (read_all_students now st).2 = st ∧
    (read_student_by_id now student_id st).2 = st ∧
    (search_students now term field st).2 = st ∧
    (get_statistics st).2 = st ∧
    (export_data st).2 = st :=
  ⟨read_all_state now st, read_by_id_state now student_id st,
    search_state now term field st, stats_state st, rfl⟩

/-- C4, as stated, is false: a partial update map carrying a `created_at`
key changes the stored record's `created_at` on a successful update. -/
theorem C4_created_at_counterexample :
    (update_student "2024-06-01 09:00:00" "S123" pCex [rs123]).1.1 = true ∧
    (update_student "2024-06-01 09:00:00" "S123" pCex [rs123]).2.map
        (fun s => s.created_at) = ["1999-01-01 00:00:00"] ∧
    rs123.created_at = "2024-01-01 10:00:00" :=
  ⟨by decide, by decide, rfl⟩

/-- C4 (amended): for every partialData map that does not itself carry a
`created_at` key, `update_student` leaves every stored record's `created_at`
unchanged, whether it succeeds or fails. -/
theorem C4_created_at_preserved (now student_id : String) (p : SDict) (st : List Student)
    (h : p.created_at = none) :
    (update_student now student_id p st).2.map (fun s => s.created_at) =
      st.map (fun s => s.created_at) :=
  update_state_created_at now student_id p st h

theorem C4_created_at_preserved_witness :
    (update_student "2024-06-01 09:00:00" "S123" { name := some "Bob Lee" } [rs123]).2.map
        (fun s => s.created_at) =
      [rs123].map (fun s => s.created_at) :=
  C4_created_at_preserved "2024-06-01 09:00:00" "S123" { name := some "Bob Lee" } [rs123] rfl

/-- C5: `update_student` never changes a stored id; a `student_id` key in the
partial data is silently ignored (the whole call result is unchanged by it);
on success the record at the found index is the current values overwritten by
exactly the keys present in the partial data, with the original id and a
fresh `updated_at`. -/
theorem C5_update_ignores_id (now student_id v : String) (p : SDict) (st : List Student) :
    ((update_student now student_id p st).2.map (fun s => s.student_id) =
      st.map (fun s => s.student_id)) ∧
    (update_student now student_id { p with student_id := some v } st =
      update_student now student_id p st) ∧
    (∀ i cur, findIndex student_id st = some i → st.get? i = some cur →
      (update_student now student_id p st).1.1 = true →
      (update_student now student_id p st).2.get? i = some
        { student_id := cur.student_id
          name := p.name.getD cur.name
          email := p.email.getD cur.email
          age := p.age.getD cur.age
          major := p.major.getD cur.major
          gpa := p.gpa.getD cur.gpa
          created_at := p.created_at.getD cur.created_at
          updated_at := now }) := by
  refine ⟨update_state_ids now student_id p st, by cases p; rfl, ?_⟩
  intro i cur hF hget hok
  have h0 : ¬ student_id = "" := by
    intro he
    rw [update_student, if_pos he] at hok
    simp at hok
  unfold update_student at hok ⊢
  rw [if_neg h0] at hok ⊢
  simp only [hF] at hok ⊢
  split_ifs at hok ⊢ with hv
  have hgetAt : getAt st i = cur := by unfold getAt; rw [hget]; rfl
  rw [List.get?_set_eq, hget]
  rw [hgetAt]
  cases p
  simp [Student.update_timestamp, Student.from_dict, mergeDict, Student.to_dict,
    orElse_some_getD]

theorem C5_update_ignores_id_witness :
    (update_student "2024-06-01 09:00:00" "S123" { name := some "Bob Lee" } [rs123]).2.get? 0 =
      some { student_id := "S123", name := "Bob Lee", email := "alice@mail.com",
             age := 20, major := "Math", gpa := ⟨7, 2, by decide, by decide⟩,
             created_at := "2024-01-01 10:00:00", updated_at := "2024-06-01 09:00:00" } := by
  have h := (C5_update_ignores_id "2024-06-01 09:00:00" "S123" "Z"
    { name := some "Bob Lee" } [rs123]).2.2 0 rs123 (by decide) rfl (by decide)
  simpa using h

/-- C2: whenever a controller operation returns a failure result, the stored
collection is unchanged by that call; in particular creating a record whose
id is already present fails and leaves the collection unchanged. -/
theorem C2_error_atomicity (now student_id term field : String) (d p : SDict)
    (rows : List SDict) (st : List Student) :
    ((create_student now d st).1.1 = false → (create_student now d st).2 = st) ∧
    ((read_student_by_id now student_id st).1.1 = false →
      (read_student_by_id now student_id st).2 = st) ∧
    ((update_student now student_id p st).1.1 = false →
      (update_student now student_id p st).2 = st) ∧
    ((delete_student student_id st).1.1 = false → (delete_student student_id st).2 = st) ∧
    ((search_students now term field st).1.1 = false →
      (search_students now term field st).2 = st) ∧
    ((import_data now rows st).1.1 = false → (import_data now rows st).2 = st) ∧
    ((st.map (fun s => s.student_id)).contains (d.student_id.getD "") = true →
      (create_student now d st).1.1 = false ∧ (create_student now d st).2 = st) := by
  refine ⟨fun h => create_fail_state h, fun _ => read_by_id_state now student_id st,
    fun h => update_fail_state h, fun h => delete_fail_state h,
    fun _ => search_state now term field st, fun h => import_fail_state h, fun hc => ?_⟩
  have hfail : (create_student now d st).1.1 = false := by
    unfold create_student
    dsimp only
    split_ifs with hv
    · rfl
    · exfalso
      have hok : (validate_all_fields
          { student_id := d.student_id.getD "", name := d.name.getD "",
            email := d.email.getD "", age := d.age.getD 0, major := d.major.getD "",
            gpa := d.gpa.getD 0, created_at := now, updated_at := now }
          (st.map (fun s => s.student_id))).1 = true := by
        revert hv
        cases (validate_all_fields
          { student_id := d.student_id.getD "", name := d.name.getD "",
            email := d.email.getD "", age := d.age.getD 0, major := d.major.getD "",
            gpa := d.gpa.getD 0, created_at := now, updated_at := now }
          (st.map (fun s => s.student_id))).1 <;> simp
      obtain ⟨_, hnm⟩ := vaf_ok_not_mem hok
      exact hnm (by simpa [List.contains, List.elem_iff] using hc)
  exact ⟨hfail, create_fail_state hfail⟩

theorem C2_error_atomicity_witness :
    (create_student "W" (Student.to_dict rs123) [rs123]).1.1 = false ∧
    (create_student "W" (Student.to_dict rs123) [rs123]).2 = [rs123] :=
  (C2_error_atomicity "W" "x" "t" "name" (Student.to_dict rs123) {} [] [rs123]).2.2.2.2.2.2
    (by decide)

/-- C7: for a non-empty term and a field in the valid set, search succeeds
and returns exactly the records whose lowercased field value contains the
lowercased term, in insertion order (zero matches included); a field outside
the set fails with a message naming the valid set; an empty term fails. -/
theorem C7_search_semantics (now term field : String) (st : List Student) :
    (term ≠ "" → valid_fields.contains field = true →
      (search_students now term field st).1.1 = true ∧
      (search_students now term field st).1.2.2 =
        st.filter (fun d =>
          containsSub (pyLower term).data (pyLower (fieldValue field d)).data)) ∧
    (term ≠ "" → valid_fields.contains field = false →
      (search_students now term field st).1.1 = false ∧
      (search_students now term field st).1.2.1 =
        "Invalid search field. Valid fields: name, major, email, student_id") ∧
    (term = "" → (search_students now term field st).1.1 = false) := by
  refine ⟨fun h1 h2 => ?_, fun h1 h2 => ?_, fun h1 => ?_⟩
  · unfold search_students
    rw [if_neg h1, if_neg (by rw [h2]; decide)]
    dsimp only
    rw [map_from_dict_to_dict]
    split_ifs with he
    · exact ⟨rfl, (List.isEmpty_iff.mp he).symm⟩
    · exact ⟨rfl, rfl⟩
  · unfold search_students
    rw [if_neg h1, if_pos (by rw [h2]; rfl)]
    exact ⟨rfl, rfl⟩
  · unfold search_students
    rw [if_pos h1]

theorem C7_search_semantics_witness :
    (search_students "W" "ath" "major" [rs123]).1.1 = true ∧
    (search_students "W" "ath" "major" [rs123]).1.2.2 =
      [rs123].filter (fun d =>
        containsSub (pyLower "ath").data (pyLower (fieldValue "major" d)).data) :=
  (C7_search_semantics "W" "ath" "major" [rs123]).1 (by decide) (by decide)

/-- C9: `validate_all_fields` runs the validators in the fixed order id,
name, email, age, major, gpa, accumulating every failure message; the
duplicate-id error is appended exactly when the id is syntactically valid
and already present; the call succeeds exactly when the accumulated error
list is empty. -/
theorem C9_validation_accumulates (s : Student) (ids : List String) :
    ((validate_all_fields s ids).1 = true ↔ (validate_all_fields s ids).2 = []) ∧
    (validate_all_fields s ids).2 =
      (if (validate_student_id s.student_id).1 then
        (if ids.contains s.student_id then ["Student ID already exists"] else [])
      else [(validate_student_id s.student_id).2]) ++
      ((if (validate_name s.name).1 then [] else [(validate_name s.name).2]) ++
       ((if (validate_email s.email).1 then [] else [(validate_email s.email).2]) ++
        ((if (validate_age s.age).1 then [] else [(validate_age s.age).2]) ++
         ((if (validate_major s.major).1 then [] else [(validate_major s.major).2]) ++
          (if (validate_gpa s.gpa).1 then [] else [(validate_gpa s.gpa).2]))))) ∧
    ("Student ID already exists" ∈ (validate_all_fields s ids).2 ↔
      ((validate_student_id s.student_id).1 = true ∧ s.student_id ∈ ids)) :=
  ⟨vaf_ok_iff s ids, vaf_decomp s ids, dup_mem_iff s ids⟩

/-- C1: import validates each row in order against the ids of the rows
already accepted (it succeeds exactly when every row validates against the
ids of the deserialized prefix before it); on any failure the stored
collection is exactly what it was, and on success it is replaced wholesale
by the imported rows. -/
theorem C1_import_all_or_nothing (now : String) (rows : List SDict) (st : List Student) :
    ((import_data now rows st).1.1 = false → (import_data now rows st).2 = st) ∧
    ((import_data now rows st).1.1 = true →
      (import_data now rows st).2 = rows.map (Student.from_dict now)) ∧
    ((import_data now rows st).1.1 = true ↔
      ∀ j (h : j < rows.length),
        (validate_all_fields (Student.from_dict now (rows.get ⟨j, h⟩))
          (((rows.take j).map (Student.from_dict now)).map
            (fun s => s.student_id))).1 = true) := by
  refine ⟨fun h => import_fail_state h, ?_, ?_⟩
  all_goals
    unfold import_data
    dsimp only
    split_ifs with he
  · intro h; simp at h
  · intro _
    have h2 : (import_rows now [] [] 0 rows).2 = [] := by
      revert he
      cases hr : (import_rows now [] [] 0 rows).2 <;> simp
    have := (import_rows_ok now rows [] 0).2 h2
    simpa using this
  · have h2 : ¬ (import_rows now [] [] 0 rows).2 = [] := by
      revert he
      cases hr : (import_rows now [] [] 0 rows).2 <;> simp
    simp only [false_iff]
    intro hall
    exact h2 ((import_rows_ok now rows [] 0).1.mpr (by simpa using hall))
  · have h2 : (import_rows now [] [] 0 rows).2 = [] := by
      revert he
      cases hr : (import_rows now [] [] 0 rows).2 <;> simp
    simp only [true_iff]
    have := (import_rows_ok now rows [] 0).1.mp h2
    simpa using this

theorem C1_import_all_or_nothing_witness :
    (import_data "T" [Student.to_dict rs123] []).2 =
      [Student.from_dict "T" (Student.to_dict rs123)] :=
  (C1_import_all_or_nothing "T" [Student.to_dict rs123] []).2.1 (by decide)

/-- C6: in every collection state reachable by controller operations from
the empty collection, the stored ids are pairwise distinct; and on a
collection with distinct ids, the validation run by `update_student`
(the merged record against the ids excluding the updated position) never
produces the duplicate-id error for the record's own unchanged id. -/
theorem C6_ids_unique (ops : List Op) (now student_id : String) (p : SDict)
    (st : List Student) (i : Nat) :
    ((runOps ops).map (fun s => s.student_id)).Nodup ∧
    ((st.map (fun s => s.student_id)).Nodup → findIndex student_id st = some i →
      "Student ID already exists" ∉
        (validate_all_fields (Student.from_dict now (mergeDict (getAt st i).to_dict p))
          (idsExcept st i)).2) := by
  constructor
  · exact runOps_nodup ops [] (by simp)
  · intro hnd hF
    obtain ⟨cur, hget, hid⟩ := findIndex_get hF
    intro hdup
    obtain ⟨hvalid, hmem⟩ := (dup_mem_iff _ _).mp hdup
    have hcur : getAt st i = cur := by unfold getAt; rw [hget]; rfl
    have hmid : (Student.from_dict now (mergeDict (getAt st i).to_dict p)).student_id =
        cur.student_id := by rw [hcur]; rfl
    rw [hmid] at hmem
    exact not_mem_idsExcept hnd hget hmem

theorem C6_ids_unique_witness :
    "Student ID already exists" ∉
      (validate_all_fields (Student.from_dict "W" (mergeDict (getAt [rs123] 0).to_dict {}))
        (idsExcept [rs123] 0)).2 :=
  (C6_ids_unique [] "W" "S123" {} [rs123] 0).2 (by decide) (by decide)

/-- C8: on a non-empty collection, statistics succeeds with the record
count, the mean gpa rounded to 2 decimals, the extreme gpas (a stored gpa
bounding all others on each side), the mean age rounded to 1 decimal, and a
map sending exactly each major present to its multiplicity; the empty
collection succeeds with no payload; on the five GPAs 3.8, 3.9, 3.5, 3.7,
3.6 the average is 3.7, the highest 3.9 and the lowest 3.5. -/
theorem C8_statistics_content (st : List Student) :
    (st = [] → get_statistics st = ((true, "No students in the system.", none), st)) ∧
    (st ≠ [] → ∃ s : Stats,
      (get_statistics st).1.1 = true ∧ (get_statistics st).1.2.2 = some s ∧
      s.total_students = st.length ∧
      s.average_gpa = pyRound ((st.map (fun d => d.gpa)).sum /
        ((st.map (fun d => d.gpa)).length : Rat)) 2 ∧
      s.highest_gpa ∈ st.map (fun d => d.gpa) ∧
      (∀ g ∈ st.map (fun d => d.gpa), g ≤ s.highest_gpa) ∧
      s.lowest_gpa ∈ st.map (fun d => d.gpa) ∧
      (∀ g ∈ st.map (fun d => d.gpa), s.lowest_gpa ≤ g) ∧
      s.average_age = pyRound ((((st.map (fun d => d.age)).sum : Int) : Rat) /
        ((st.map (fun d => d.age)).length : Rat)) 1 ∧
      (∀ m, lookupK m s.major_distribution =
        if m ∈ st.map (fun d => d.major) then some ((st.map (fun d => d.major)).count m)
        else none)) ∧
    (∃ s : Stats, (get_statistics fiveStudents).1.2.2 = some s ∧
      s.average_gpa = 37/10 ∧ s.highest_gpa = 39/10 ∧ s.lowest_gpa = 7/2) := by
  refine ⟨fun h => by subst h; rfl, fun hne => ?_, ?_⟩
  · cases st with
    | nil => exact absurd rfl hne
    | cons s0 ss =>
      have hmax := listMax_spec (ss.map (fun d => d.gpa)) s0.gpa
      have hmin := listMin_spec (ss.map (fun d => d.gpa)) s0.gpa
      refine ⟨_, rfl, rfl, rfl, rfl, ?_, ?_, ?_, ?_, rfl,
        fun m => countMajors_lookup _ m⟩
      · rcases hmax.1 with h1 | h1
        · rw [List.map_cons, h1]; exact List.mem_cons_self _ _
        · exact List.mem_cons_of_mem _ h1
      · intro g hg
        rcases List.mem_cons.mp hg with rfl | hg2
        · exact hmax.2.1
        · exact hmax.2.2 g hg2
      · rcases hmin.1 with h1 | h1
        · rw [List.map_cons, h1]; exact List.mem_cons_self _ _
        · exact List.mem_cons_of_mem _ h1
      · intro g hg
        rcases List.mem_cons.mp hg with rfl | hg2
        · exact hmin.2.1
        · exact hmin.2.2 g hg2
  · have e1 : (⟨19, 5, by decide, by decide⟩ : Rat) = 19/5 := by
      rw [Rat.mk'_eq_divInt, Rat.divInt_eq_div]; norm_num
    have e2 : (⟨39, 10, by decide, by decide⟩ : Rat) = 39/10 := by
      rw [Rat.mk'_eq_divInt, Rat.divInt_eq_div]; norm_num
    have e3 : (⟨7, 2, by decide, by decide⟩ : Rat) = 7/2 := by
      rw [Rat.mk'_eq_divInt, Rat.divInt_eq_div]; norm_num
    have e4 : (⟨37, 10, by decide, by decide⟩ : Rat) = 37/10 := by
      rw [Rat.mk'_eq_divInt, Rat.divInt_eq_div]; norm_num
    have e5 : (⟨18, 5, by decide, by decide⟩ : Rat) = 18/5 := by
      rw [Rat.mk'_eq_divInt, Rat.divInt_eq_div]; norm_num
    have hpr : pyRound (37/10 : Rat) 2 = 37/10 := by
      have hr : roundHalfEven ((37/10 : Rat) * 10^2) = 370 := by
        have h370 : (37/10 : Rat) * 10^2 = 370 := by norm_num
        rw [h370]; decide
      unfold pyRound
      rw [hr]
      push_cast
      norm_num
    refine ⟨_, rfl, ?_, ?_, ?_⟩
    · show pyRound ((fiveStudents.map (fun d => d.gpa)).sum /
        ((fiveStudents.map (fun d => d.gpa)).length : Rat)) 2 = 37/10
      have harg : (fiveStudents.map (fun d => d.gpa)).sum /
          ((fiveStudents.map (fun d => d.gpa)).length : Rat) = 37/10 := by
        simp only [fiveStudents, rs123, List.map_cons, List.map_nil, List.sum_cons,
          List.sum_nil, List.length_cons, List.length_nil, e1, e2, e3, e4, e5]
        push_cast
        norm_num
      rw [harg, hpr]
    · show listMax _ _ = 39/10
      unfold listMax
      simp only [fiveStudents, rs123, List.map_cons, List.map_nil, List.foldl_cons,
        List.foldl_nil, e1, e2, e3, e4, e5]
      rw [max_def, max_def, max_def, max_def]
      norm_num
    · show listMin _ _ = 7/2
      unfold listMin
      simp only [fiveStudents, rs123, List.map_cons, List.map_nil, List.foldl_cons,
        List.foldl_nil, e1, e2, e3, e4, e5]
      rw [min_def, min_def, min_def, min_def]
      norm_num

theorem C8_statistics_content_witness :
    get_statistics ([] : List Student) = ((true, "No students in the system.", none), []) :=
  (C8_statistics_content []).1 rfl

end StudentApp
